import Mathlib

/-!
Shallow embedding of `src/geo/geo.py` (class `Geo`), the geocoding
reconciliation and aggregation core of the repository.

Modelling conventions:
* Python floats are modelled as exact rationals (`ℚ`); `float(str)` is
  modelled by `pyFloat` on plain decimal literals.
* Fallible Python code is modelled with `Except PyErr`; the distinct
  constructors of `PyErr` model the distinct `raise` sites (Python raises
  `ValueError` at two of them and `AttributeError` at a third; the
  structured constructors record what the exception message carries).
* A provider callable (`getattr(geocoder, method_name)`) is an opaque
  parameter `method : String → Except Unit Response`; `.error` models the
  call throwing any `Exception`.
* `warnings.warn` calls that a claim mentions are modelled by an explicit
  list of emitted warning messages threaded through the multi-provider
  path; warnings inside `get_coordinates` do not affect any value and are
  not modelled.
-/

/-- `Geo.Point = namedtuple('Point', ('address', 'x', 'y'))`. -/
structure Point where
  address : String
  x : ℚ
  y : ℚ
deriving DecidableEq

/-- Errors that the embedded code can raise.
`valueError` models the uncaught `ValueError` from `float()` on malformed
text in `Geo.__get_wkt`; `toleranceError` models the `ValueError` that
`cmath.isclose` raises when `rel_tol` is negative; `attributeError` models
an uncaught `AttributeError`; `disagreement` models the `ValueError`
raised in `Geo.__get_lat_and_lng`, whose message carries both conflicting
`Point`s (each of which contains the address). -/
inductive PyErr
  | valueError
  | toleranceError
  | attributeError
  | disagreement (wkt osm : Point)
deriving DecidableEq

/-- A provider response (`query_result`), exposing the two optional
candidate representations the code reads.  The outer `Option` models
whether the attribute exists (`none` = accessing it raises
`AttributeError`); for `wkt` the inner `Option` models the attribute
holding `None` (`none`) versus a string. `osm` holds a dict from keys to
float values. -/
structure Response where
  wkt : Option (Option String)
  osm : Option (List (String × ℚ))
deriving DecidableEq

/-- The configuration stored by `Geo.__init__`: the provider allow-list
and the relative tolerance. -/
structure Geo where
  allowed_methods : List String
  rel_tol : ℚ
deriving DecidableEq

/-- The default `allowed_methods` tuple of `Geo.__init__`. -/
def defaultAllowedMethods : List String :=
  ["arcgis", "baidu", "bing", "gaode", "geocodefarm", "geolytica",
   "geonames", "ottawa", "google", "here", "locationiq", "mapbox",
   "mapquest", "opencage", "osm", "tamu", "tomtom", "w3w", "yahoo",
   "yandex", "tgos"]

/-- The default `rel_tol = 1e-09` of `Geo.__init__`. -/
def defaultRelTol : ℚ := 1 / 1000000000

/-- `Geo.__init__`: stores both parameters.  The `Except` result type
records whether construction raises; the body performs no validation and
never raises. -/
def Geo.init (allowed_methods : List String) (rel_tol : ℚ) : Except PyErr Geo :=
  .ok ⟨allowed_methods, rel_tol⟩

/-- Python `\s` (ASCII whitespace, as matched inside the WKT pattern). -/
def pySpace (c : Char) : Bool :=
  c == ' ' || c == '\t' || c == '\n' || c == '\r' || c == '\x0b' || c == '\x0c'

/-- Numeric value of a digit string. -/
def digitsVal (ds : List Char) : Nat :=
  ds.foldl (fun acc c => acc * 10 + (c.toNat - 48)) 0

/-- Exponent suffix of a Python float literal (`e`/`E`, optional sign,
digits); `none` models `float()` raising `ValueError` on trailing junk. -/
def parseExpPart (m : ℚ) (cs : List Char) : Option ℚ :=
  match cs with
  | [] => some m
  | c :: t =>
    if c == 'e' || c == 'E' then
      let signed : Bool × List Char :=
        match t with
        | '+' :: u => (false, u)
        | '-' :: u => (true, u)
        | _ => (false, t)
      let ds := signed.2.takeWhile Char.isDigit
      let rest := signed.2.dropWhile Char.isDigit
      if ds ≠ [] ∧ rest = [] then
        let e := digitsVal ds
        some (if signed.1 then m / 10 ^ e else m * 10 ^ e)
      else none
    else none

/-- Python `float(str)` on plain decimal literals: optional surrounding
whitespace, optional sign, digits with an optional fractional part, and an
optional exponent.  `none` models `float()` raising `ValueError`
(special forms such as `inf`, `nan` or underscore separators are outside
the inputs this development evaluates and are modelled as unparseable). -/
def pyFloat (s : String) : Option ℚ :=
  let cs := ((s.toList.dropWhile pySpace).reverse.dropWhile pySpace).reverse
  let signed : Bool × List Char :=
    match cs with
    | '+' :: t => (false, t)
    | '-' :: t => (true, t)
    | _ => (false, cs)
  let ip := signed.2.takeWhile Char.isDigit
  let cs2 := signed.2.dropWhile Char.isDigit
  let frac : List Char × List Char :=
    match cs2 with
    | '.' :: t => (t.takeWhile Char.isDigit, t.dropWhile Char.isDigit)
    | _ => ([], cs2)
  if ip = [] ∧ frac.1 = [] then none
  else
    let mant : ℚ :=
      (digitsVal ip : ℚ) +
        (if frac.1 = [] then 0 else (digitsVal frac.1 : ℚ) / 10 ^ frac.1.length)
    parseExpPart (if signed.1 then -mant else mant) frac.2

/-- `Geo.__parse_wtk`: `re.search` of the anchored pattern
`^POINT\((?P<x>\S+)\s+(?P<y>\S+)\)$`, returning the group dict on a match.
A match decomposes the string as `POINT(` ++ x ++ spaces ++ y ++ `)` with
`x` the leading maximal non-space run, the separator a non-empty space
run, and `y` a non-empty non-space run reaching the final `)`. -/
def parse_wtk (s : String) : Option (String × String) :=
  let cs := s.toList
  if cs.take 6 = ['P', 'O', 'I', 'N', 'T', '('] ∧ cs.getLast? = some ')' then
    let mid := (cs.drop 6).dropLast
    let x := mid.takeWhile (fun c => !pySpace c)
    let r1 := mid.dropWhile (fun c => !pySpace c)
    let w := r1.takeWhile pySpace
    let y := r1.dropWhile pySpace
    if x ≠ [] ∧ w ≠ [] ∧ y ≠ [] ∧ y.all (fun c => !pySpace c) then
      some (String.mk x, String.mk y)
    else none
  else none

/-- `self.__parse_wtk(query_result.wkt) if query_result.wkt else None`:
parse the attribute value only when it is truthy (not `None`, not the
empty string). -/
def parseIfTruthy (att : Option String) : Option (String × String) :=
  match att with
  | none => none
  | some str => if str ≠ "" then parse_wtk str else none

/-- `Geo.__get_wkt`: read `query_result.wkt` (an `AttributeError` is
caught and leaves the result `None`), parse it when truthy, and on a
pattern match convert both groups with `float` — a conversion failure is
an uncaught `ValueError`. -/
def get_wkt (address : String) (qr : Response) : Except PyErr (Option Point) :=
  match qr.wkt with
  | none => .ok none
  | some att =>
    match parseIfTruthy att with
    | none => .ok none
    | some xy =>
      if xy.1 ≠ "" ∧ xy.2 ≠ "" then
        match pyFloat xy.1, pyFloat xy.2 with
        | some qx, some qy => .ok (some ⟨address, qx, qy⟩)
        | _, _ => .error .valueError
      else .ok none

/-- `dict.get(k, None)` on the `osm` mapping. -/
def dictGet (d : List (String × ℚ)) (k : String) : Option ℚ :=
  d.lookup k

/-- `Geo.__get_osm`: read `query_result.osm` (an `AttributeError` is
caught), and when the dict is truthy read `x` and `y` with `.get`; the
guard `if x and y` tests truthiness of the values, so a missing key or a
value equal to `0` yields no candidate. -/
def get_osm (address : String) (qr : Response) : Option Point :=
  match qr.osm with
  | none => none
  | some d =>
    if d ≠ [] then
      match dictGet d "x", dictGet d "y" with
      | some qx, some qy =>
        if qx ≠ 0 ∧ qy ≠ 0 then some ⟨address, qx, qy⟩ else none
      | _, _ => none
    else none

/-- `cmath.isclose(a, b, rel_tol=rel_tol)` on real values with the default
`abs_tol = 0.0`: raises `ValueError` for a negative tolerance, otherwise
tests `|a - b| ≤ max (rel_tol * max |a| |b|) 0`. -/
def isclose (a b rel_tol : ℚ) : Except PyErr Bool :=
  if rel_tol < 0 then .error .toleranceError
  else .ok (decide (|a - b| ≤ max (rel_tol * max |a| |b|) 0))

/-- The relative-tolerance closeness test in the form the specification
states it: `|a − b| ≤ rel_tol × max (|a|, |b|)`. -/
def closeQ (a b rel_tol : ℚ) : Prop :=
  |a - b| ≤ rel_tol * max |a| |b|

instance (a b rel_tol : ℚ) : Decidable (closeQ a b rel_tol) := by
  unfold closeQ
  infer_instance

/-- `Geo.__get_lat_and_lng`: extract both candidates; when both are
present compare each axis with `isclose` (short-circuit `and`) and return
the WKT candidate on agreement or raise carrying both points; otherwise
return `wkt or osm`. -/
def getLatAndLng (g : Geo) (address : String) (qr : Response) :
    Except PyErr (Option Point) :=
  match get_wkt address qr with
  | .error e => .error e
  | .ok wkt? =>
    match wkt?, get_osm address qr with
    | some w, some o =>
      match isclose w.x o.x g.rel_tol with
      | .error e => .error e
      | .ok cx =>
        if cx then
          match isclose w.y o.y g.rel_tol with
          | .error e => .error e
          | .ok cy => if cy then .ok (some w) else .error (.disagreement w o)
        else .error (.disagreement w o)
    | some w, none => .ok (some w)
    | none, o => .ok o

deriving instance DecidableEq for Except

/-- The `address` argument of `get_coordinates` and
`get_multiple_method_coordinates`: a single string or a list of strings
(`isinstance(address, str)` distinguishes the two). -/
inductive AddrInput
  | single (s : String)
  | list (l : List String)
deriving DecidableEq

/-- The value `get_coordinates` returns: Python `None`, a single `Point`,
or a list (whose elements may be `None` when nulls are retained). -/
inductive GCRet
  | nil
  | one (p : Point)
  | many (l : List (Option Point))
deriving DecidableEq

/-- Number of positions in a `get_coordinates` return value. -/
def GCRet.positions : GCRet → Nat
  | .nil => 0
  | .one _ => 1
  | .many l => l.length

/-- Python truthiness of a `get_coordinates` return value (`None` is
falsy, a `Point` namedtuple is truthy, a list is truthy iff non-empty). -/
def GCRet.truthy : GCRet → Bool
  | .nil => false
  | .one _ => true
  | .many l => decide (l ≠ [])

/-- The final line of `get_coordinates`:
`result if len(result) > 1 else result[0] if result else None`.
A singleton list holding `None` returns that element, which is Python
`None` (`GCRet.nil`). -/
def retConv (result : List (Option Point)) : GCRet :=
  if 1 < result.length then .many result
  else
    match result with
    | [some p] => .one p
    | _ => .nil

/-- The per-address loop of `get_coordinates` over a list of addresses:
a provider call that throws is caught (a warning is emitted and nothing
is appended), while an exception from `__get_lat_and_lng` propagates and
aborts the batch. -/
def processAddrs (g : Geo) (method : String → Except Unit Response) :
    List String → Except PyErr (List (Option Point))
  | [] => .ok []
  | a :: rest =>
    match method a with
    | .error _ => processAddrs g method rest
    | .ok res =>
      match getLatAndLng g a res with
      | .error e => .error e
      | .ok p =>
        match processAddrs g method rest with
        | .error e => .error e
        | .ok tail => .ok (p :: tail)

/-- `Geo.get_coordinates`. -/
def get_coordinates (g : Geo) (method : String → Except Unit Response)
    (address : AddrInput) (leave_null_values : Bool) : Except PyErr GCRet :=
  match address with
  | .single s =>
    match method s with
    | .error _ => .ok (retConv [])
    | .ok res =>
      match getLatAndLng g s res with
      | .error e => .error e
      | .ok p =>
        .ok (retConv (if leave_null_values then [p] else [p].filter Option.isSome))
  | .list addrs =>
    match processAddrs g method addrs with
    | .error e => .error e
    | .ok result =>
      .ok (retConv (if leave_null_values then result else result.filter Option.isSome))

/-- A table cell, `[v.x, v.y]`. -/
abbrev Cell := ℚ × ℚ

/-- A Python value appearing as `v` in the dict comprehension of
`get_multiple_method_coordinates`: iterating a `Point` namedtuple yields
its `address` (a string) and its `x` and `y` (numbers); iterating a
result list yields `Point`-or-`None` entries. -/
inductive PyV
  | vstr (s : String)
  | vnum (q : ℚ)
  | vopt (p : Option Point)
deriving DecidableEq

/-- Python truthiness of such a value. -/
def PyV.truthy : PyV → Bool
  | .vstr s => decide (s ≠ "")
  | .vnum q => decide (q ≠ 0)
  | .vopt p => p.isSome

/-- Evaluating `v.x` and then `v.y`: only a `Point` has those attributes;
on a string, a number or `None` the access raises `AttributeError`. -/
def PyV.xyAttrs : PyV → Except PyErr Cell
  | .vopt (some p) => .ok (p.x, p.y)
  | _ => .error .attributeError

/-- One cell of the comprehension: `[v.x, v.y] if v else None`. -/
def cellOf (v : PyV) : Except PyErr (Option Cell) :=
  if v.truthy then
    match v.xyAttrs with
    | .error e => .error e
    | .ok c => .ok (some c)
  else .ok none

/-- Python dict insertion: overwrite the value of an existing key in
place, otherwise append. -/
def dictUpsert (d : List (String × Option Cell)) (k : String) (c : Option Cell) :
    List (String × Option Cell) :=
  match d with
  | [] => [(k, c)]
  | kv :: t => if kv.1 = k then (kv.1, c) :: t else kv :: dictUpsert t k c

/-- The dict comprehension
`{k: [[v.x, v.y] if v else None] for k, v in zip(address, current_res)}`,
evaluated left to right; the first raising cell aborts it. -/
def buildData (acc : List (String × Option Cell)) :
    List (String × PyV) → Except PyErr (List (String × Option Cell))
  | [] => .ok acc
  | kv :: rest =>
    match cellOf kv.2 with
    | .error e => .error e
    | .ok c => buildData (dictUpsert acc kv.1 c) rest

/-- The keys `zip(address, ...)` iterates: characters of a single string,
or the strings of a list. -/
def AddrInput.keys : AddrInput → List String
  | .single s => s.toList.map (fun c => String.mk [c])
  | .list l => l

/-- The values `zip(..., current_res)` iterates: iterating a truthy
`Point` yields its three fields, iterating a truthy list yields its
elements.  (`GCRet.nil` is never iterated: the code guards with
`if current_res`.) -/
def GCRet.iterVals : GCRet → List PyV
  | .nil => []
  | .one p => [.vstr p.address, .vnum p.x, .vnum p.y]
  | .many l => l.map PyV.vopt

/-- Reading one row out of the dict along the DataFrame columns
(`columns=address`): a column missing from the dict is `NaN`. -/
def rowFromDict (cols : List String) (d : List (String × Option Cell)) :
    List (Option Cell) :=
  cols.map (fun c => (d.lookup c).getD none)

/-- Building one provider's row
`pd.DataFrame(data=data_, index=[method_name], columns=address)`. -/
def buildRow (address : AddrInput) (r : GCRet) : Except PyErr (List (Option Cell)) :=
  match buildData [] (address.keys.zip r.iterVals) with
  | .error e => .error e
  | .ok d => .ok (rowFromDict address.keys d)

/-- The result table: provider-indexed rows over address columns. -/
structure Table where
  rows : List (String × List (Option Cell))
  cols : List String
deriving DecidableEq

instance decEqRowList : DecidableEq (List (String × List (Option Cell))) :=
  inferInstance

instance decEqRunOut : DecidableEq (Except PyErr (List (String × List (Option Cell)))) :=
  inferInstance

instance decEqRunPair :
    DecidableEq (List String × Except PyErr (List (String × List (Option Cell)))) :=
  inferInstance

/-- The message of `warnings.warn` for a method outside the allow-list. -/
def unknownMethodWarning (m : String) : String :=
  "Method \"" ++ m ++ "\" not found in \"methods_confidence_map\"."

/-- The provider loop of `get_multiple_method_coordinates`: a method not
in the allow-list is warned about and skipped; an allowed method is
queried with `leave_null_values=True` and contributes a row only when its
result is truthy.  Warnings emitted before an exception persist. -/
def runProviders (g : Geo) (methods : String → String → Except Unit Response)
    (address : AddrInput) :
    List String → List String → List (String × List (Option Cell)) →
    List String × Except PyErr (List (String × List (Option Cell)))
  | [], warns, dfs => (warns, .ok dfs)
  | m :: rest, warns, dfs =>
    if m ∈ g.allowed_methods then
      match get_coordinates g (methods m) address true with
      | .error e => (warns, .error e)
      | .ok r =>
        if r.truthy then
          match buildRow address r with
          | .error e => (warns, .error e)
          | .ok row => runProviders g methods address rest warns (dfs ++ [(m, row)])
        else runProviders g methods address rest warns dfs
    else runProviders g methods address rest (warns ++ [unknownMethodWarning m]) dfs

/-- The iteration source of the provider loop:
`method_name_vec if method_name_vec else self.__allowed_methods`
(a falsy argument — absent or empty — falls back to the allow-list). -/
def effectiveNames (g : Geo) (method_name_vec : Option (List String)) : List String :=
  match method_name_vec with
  | some l => if l ≠ [] then l else g.allowed_methods
  | none => g.allowed_methods

/-- `Geo.get_multiple_method_coordinates`.  `methods` models
`getattr(geocoder, ·)`; the first component of the result collects the
emitted warnings.  After the loop, `pd.concat` stacks the rows and
`dropna(how='all')` removes the rows (axis 0 only) whose cells are all
null; with no rows collected the initial `None` is returned. -/
def get_multiple_method_coordinates (g : Geo)
    (methods : String → String → Except Unit Response)
    (address : AddrInput) (method_name_vec : Option (List String)) :
    List String × Except PyErr (Option Table) :=
  match runProviders g methods address (effectiveNames g method_name_vec) [] [] with
  | (warns, .error e) => (warns, .error e)
  | (warns, .ok dfs) =>
    if dfs ≠ [] then
      (warns, .ok (some ⟨dfs.filter (fun r => r.2.any Option.isSome), address.keys⟩))
    else (warns, .ok none)

/-- The value one address contributes to the batch when its provider
call does not throw (`some` of the reconciled value) or throws (`none`,
nothing appended), assuming reconciliation itself does not raise. -/
def perAddrResult (g : Geo) (method : String → Except Unit Response) (a : String) :
    Option (Option Point) :=
  match method a with
  | .error _ => none
  | .ok res =>
    match getLatAndLng g a res with
    | .error _ => none
    | .ok p => some p

/-! Concrete fixtures used by counterexamples and witnesses. -/

/-- A response carrying only a structured (`osm`) candidate. -/
def respOsm (x y : ℚ) : Response := ⟨none, some [("x", x), ("y", y)]⟩

/-- A response with neither candidate attribute. -/
def respEmpty : Response := ⟨none, none⟩

/-- A configuration with a two-provider allow-list and the default
tolerance. -/
def geoTwo : Geo := ⟨["m1", "m2"], defaultRelTol⟩

/-- A provider callable that throws on address `a1` and yields a
structured candidate on every other address. -/
def methodFailFirst : String → Except Unit Response := fun a =>
  if a = "a1" then .error () else .ok (respOsm 1 2)

/-- A provider callable that always yields a structured candidate. -/
def methodOsmAlways : String → Except Unit Response := fun _ => .ok (respOsm 1 2)

/-- A provider family: `m2` always comes back empty; other providers
find address `a` only. -/
def methodsSplitCols : String → String → Except Unit Response := fun m a =>
  if m = "m2" then .ok respEmpty
  else if a = "a" then .ok (respOsm 1 2) else .ok respEmpty

/-- A provider family that always yields a structured candidate. -/
def methodsConst : String → String → Except Unit Response := fun _ _ => .ok (respOsm 1 2)

/-- A configuration with a relative tolerance of `0.1`. -/
def geoTol : Geo := ⟨["m1", "m2"], 1 / 10⟩

/-- Both candidates present and within the `0.1` tolerance
(`y` differs by `0.05` on magnitude `≈ 2`). -/
def respAgree : Response :=
  ⟨some (some "POINT(1.0 2.0)"), some [("x", 1), ("y", 41 / 20)]⟩

/-- Both candidates present and far apart on the `x` axis. -/
def respFar : Response := ⟨some (some "POINT(1.0 2.0)"), some [("x", 5), ("y", 2)]⟩

/-- A WKT string matching the pattern whose first token is not a number. -/
def respBadWkt : Response := ⟨some (some "POINT(abc 2.0)"), none⟩

/-- A WKT string matching the pattern whose second token is not a number. -/
def respBadWktSnd : Response := ⟨some (some "POINT(1.0 2.0x)"), none⟩

/-- A structured mapping with both keys present but `x = 0`. -/
def respZeroX : Response := ⟨none, some [("x", 0), ("y", 2)]⟩

/-- The table the C3 counterexample run returns. -/
def tableC3 : Table := ⟨[("m1", [some (1, 2), none])], ["a", "b"]⟩

/-! Helper lemmas. -/

/-- For a non-negative tolerance, `cmath.isclose` computes exactly the
relative-tolerance test of the specification. -/
theorem isclose_eq_of_nonneg (a b t : ℚ) (ht : 0 ≤ t) :
    isclose a b t = .ok (decide (closeQ a b t)) := by
  unfold isclose closeQ
  rw [if_neg (not_lt.mpr ht),
    max_eq_left (mul_nonneg ht (le_trans (abs_nonneg a) (le_max_left _ _)))]

/-- A WKT candidate carries the queried address. -/
theorem get_wkt_address (address : String) (qr : Response) (w : Point)
    (h : get_wkt address qr = .ok (some w)) : w.address = address := by
  unfold get_wkt at h
  repeat' split at h
  all_goals simp_all
  subst h
  rfl

/-- A structured candidate carries the queried address. -/
theorem get_osm_address (address : String) (qr : Response) (o : Point)
    (h : get_osm address qr = some o) : o.address = address := by
  unfold get_osm at h
  repeat' split at h
  all_goals simp_all
  subst h
  rfl

/-- A reconciled point carries the queried address. -/
theorem getLatAndLng_address (g : Geo) (address : String) (qr : Response) (p : Point)
    (h : getLatAndLng g address qr = .ok (some p)) : p.address = address := by
  unfold getLatAndLng at h
  repeat' split at h
  all_goals simp_all
  · subst h
    exact get_wkt_address address qr _ (by assumption)
  · subst h
    exact get_wkt_address address qr _ (by assumption)
  · exact get_osm_address address qr _ h

/-- Characterization of the per-address loop on success: one entry per
address whose provider call did not throw, in input order; addresses
whose call threw contribute nothing. -/
theorem processAddrs_ok_eq (g : Geo) (method : String → Except Unit Response)
    (addrs : List String) (l : List (Option Point))
    (h : processAddrs g method addrs = .ok l) :
    l = addrs.filterMap (perAddrResult g method) := by
  induction addrs generalizing l with
  | nil =>
    unfold processAddrs at h
    simp only [List.filterMap_nil]
    exact (Except.ok.injEq _ _ ▸ h).symm ▸ rfl
  | cons a rest ih =>
    unfold processAddrs at h
    split at h
    · rename_i e hm
      simp only [List.filterMap_cons, perAddrResult, hm]
      exact ih l h
    · rename_i res hm
      split at h
      · simp at h
      · rename_i p hg
        split at h
        · simp at h
        · rename_i tail ht
          simp only [Except.ok.injEq] at h
          subst h
          simp only [List.filterMap_cons, perAddrResult, hm, hg]
          rw [← ih tail ht]

/-- Each entry of the batch result corresponds to one non-throwing
address: the result length equals the number of addresses whose provider
call succeeded. -/
theorem processAddrs_length (g : Geo) (method : String → Except Unit Response)
    (addrs : List String) (l : List (Option Point))
    (h : processAddrs g method addrs = .ok l) :
    l.length = (addrs.filter (fun a => (method a).isOk)).length := by
  induction addrs generalizing l with
  | nil =>
    unfold processAddrs at h
    simp only [Except.ok.injEq] at h
    subst h
    rfl
  | cons a rest ih =>
    unfold processAddrs at h
    split at h
    · rename_i e hm
      have hOk : (method a).isOk = false := by rw [hm]; rfl
      rw [List.filter_cons, if_neg (by simp [hOk])]
      exact ih l h
    · rename_i res hm
      split at h
      · simp at h
      · rename_i p hg
        split at h
        · simp at h
        · rename_i tail ht
          simp only [Except.ok.injEq] at h
          subst h
          have hOk : (method a).isOk = true := by rw [hm]; rfl
          rw [List.filter_cons, if_pos hOk]
          simp only [List.length_cons]
          rw [ih tail ht]

/-! Claim theorems. -/

/-- C1, counterexample: with null-retention requested
(`leave_null_values=True`) over the batch `["a1", "a2"]` where the
provider call for `"a1"` throws, `get_coordinates` returns a
one-position result — the failed address contributes no position at all —
instead of a two-position sequence with null at the failed position as
the claim requires. -/
theorem C1_counterexample :
    get_coordinates geoTwo methodFailFirst (.list ["a1", "a2"]) true
        = .ok (.one ⟨"a2", 1, 2⟩) ∧
    GCRet.positions (.one ⟨"a2", 1, 2⟩) ≠ ["a1", "a2"].length := by
  constructor
  · with_unfolding_all decide
  · decide

/-- C1, amended: with null-retention requested, an address whose provider
call throws contributes no position at all; the result holds exactly one
position per non-throwing input address, in input order (null only where
reconciliation found no candidate); null-filtering then removes only the
null positions, preserving order. -/
theorem C1_amended (g : Geo) (method : String → Except Unit Response)
    (addrs : List String) (l : List (Option Point))
    (h : processAddrs g method addrs = .ok l) :
    get_coordinates g method (.list addrs) true = .ok (retConv l) ∧
    l = addrs.filterMap (perAddrResult g method) ∧
    l.length = (addrs.filter (fun a => (method a).isOk)).length := by
  refine ⟨?_, processAddrs_ok_eq g method addrs l h, processAddrs_length g method addrs l h⟩
  unfold get_coordinates
  dsimp only
  rw [h]
  rfl

/-- C1, amended, witness at the counterexample input. -/
theorem C1_amended_witness :
    get_coordinates geoTwo methodFailFirst (.list ["a1", "a2"]) true
        = .ok (retConv [some ⟨"a2", 1, 2⟩]) ∧
    [some (⟨"a2", 1, 2⟩ : Point)]
        = ["a1", "a2"].filterMap (perAddrResult geoTwo methodFailFirst) ∧
    [some (⟨"a2", 1, 2⟩ : Point)].length
        = (["a1", "a2"].filter (fun a => (methodFailFirst a).isOk)).length :=
  C1_amended geoTwo methodFailFirst ["a1", "a2"] [some ⟨"a2", 1, 2⟩]
    (by with_unfolding_all decide)

/-- C2, counterexample: constructing with the non-positive tolerance `-1`
succeeds and stores the tolerance unchanged — no configuration error is
raised at construction time. -/
theorem C2_counterexample :
    Geo.init defaultAllowedMethods (-1) = .ok ⟨defaultAllowedMethods, -1⟩ := rfl

/-- C2, amended: construction performs no tolerance validation at all —
it succeeds for every tolerance value, zero and negative included, simply
storing the configuration; any error from a bad tolerance is deferred to
the first closeness comparison. -/
theorem C2_amended (allowed : List String) (t : ℚ) :
    Geo.init allowed t = .ok ⟨allowed, t⟩ := rfl

/-- C4, counterexample: `POINT(abc 2.0)` matches the WKT pattern, its
first token is not parseable as a double, and the extraction raises a
`ValueError` (from `float()`) instead of silently yielding no candidate. -/
theorem C4_counterexample :
    parse_wtk "POINT(abc 2.0)" = some ("abc", "2.0") ∧
    pyFloat "abc" = none ∧
    get_wkt "addr" respBadWkt = .error .valueError := by
  refine ⟨?_, ?_, ?_⟩ <;> with_unfolding_all decide

/-- C4, amended: whenever the WKT attribute is a truthy string matching
the POINT pattern and either matched token fails double conversion, the
extraction raises a `ValueError` which propagates to the caller (it is
not a silent local absence). -/
theorem C4_amended (address s xs ys : String) (qr : Response)
    (h1 : qr.wkt = some (some s)) (h2 : s ≠ "")
    (h3 : parse_wtk s = some (xs, ys)) (h4 : xs ≠ "") (h5 : ys ≠ "")
    (h6 : pyFloat xs = none ∨ pyFloat ys = none) :
    get_wkt address qr = .error .valueError := by
  obtain ⟨w?, o?⟩ := qr
  simp only at h1
  subst h1
  unfold get_wkt
  dsimp only
  have hp : parseIfTruthy (some s) = some (xs, ys) := by
    unfold parseIfTruthy
    dsimp only
    rw [if_pos h2, h3]
  rw [hp]
  dsimp only
  rw [if_pos ⟨h4, h5⟩]
  rcases h6 with h | h
  · rw [h]
  · rw [h]
    cases pyFloat xs <;> rfl

/-- C4, amended, witness: a pattern-matching WKT string whose second
token is malformed raises the conversion error. -/
theorem C4_amended_witness :
    get_wkt "addr" respBadWktSnd = .error .valueError :=
  C4_amended "addr" "POINT(1.0 2.0x)" "1.0" "2.0x" respBadWktSnd rfl
    (by decide) (by with_unfolding_all decide) (by decide) (by decide)
    (.inr (by with_unfolding_all decide))

/-- C9: when the structured mapping holds both keys `x` and `y` but
either value is numerically zero, the truthiness test `if x and y`
rejects it and the structured extraction yields no candidate, silently
treating an on-axis coordinate as absent. -/
theorem C9_zero_coordinate_dropped (address : String) (qr : Response)
    (d : List (String × ℚ)) (qx qy : ℚ)
    (hd : qr.osm = some d)
    (hx : dictGet d "x" = some qx) (hy : dictGet d "y" = some qy)
    (h0 : qx = 0 ∨ qy = 0) :
    get_osm address qr = none := by
  obtain ⟨w?, o?⟩ := qr
  simp only at hd
  subst hd
  unfold get_osm
  dsimp only
  have hdne : d ≠ [] := by
    intro hempty
    subst hempty
    simp [dictGet] at hx
  rw [if_pos hdne, hx, hy]
  dsimp only
  have hne : ¬ (qx ≠ 0 ∧ qy ≠ 0) := by
    rcases h0 with h | h
    · exact fun hc => hc.1 h
    · exact fun hc => hc.2 h
  rw [if_neg hne]

/-- C9, witness: a mapping with `x = 0` and `y = 2` yields no structured
candidate. -/
theorem C9_witness : get_osm "a" respZeroX = none :=
  C9_zero_coordinate_dropped "a" respZeroX [("x", 0), ("y", 2)] 0 2 rfl
    (by decide) (by decide) (.inl rfl)

/-- C5: the reconciler implements exactly the claimed case split — both
candidates present and close on both axes under
`|a − b| ≤ rel_tol × max (|a|, |b|)` returns the WKT candidate; exactly
one candidate present returns that candidate; neither present returns
null without error. -/
theorem C5_reconciler_cases (g : Geo) (address : String) (qr : Response)
    (ht : 0 ≤ g.rel_tol) :
    (∀ w o, get_wkt address qr = .ok (some w) → get_osm address qr = some o →
      closeQ w.x o.x g.rel_tol → closeQ w.y o.y g.rel_tol →
      getLatAndLng g address qr = .ok (some w)) ∧
    (∀ w, get_wkt address qr = .ok (some w) → get_osm address qr = none →
      getLatAndLng g address qr = .ok (some w)) ∧
    (∀ o, get_wkt address qr = .ok none → get_osm address qr = some o →
      getLatAndLng g address qr = .ok (some o)) ∧
    (get_wkt address qr = .ok none → get_osm address qr = none →
      getLatAndLng g address qr = .ok none) := by
  refine ⟨?_, ?_, ?_, ?_⟩
  · intro w o hw ho hcx hcy
    unfold getLatAndLng
    rw [hw]
    dsimp only
    rw [ho]
    dsimp only
    rw [isclose_eq_of_nonneg w.x o.x g.rel_tol ht,
        isclose_eq_of_nonneg w.y o.y g.rel_tol ht]
    simp [hcx, hcy]
  · intro w hw ho
    unfold getLatAndLng
    rw [hw]
    dsimp only
    rw [ho]
  · intro o hw ho
    unfold getLatAndLng
    rw [hw]
    dsimp only
    rw [ho]
  · intro hw ho
    unfold getLatAndLng
    rw [hw]
    dsimp only
    rw [ho]

/-- C5, witness: both candidates present and close within the configured
tolerance (`y` differs by `0.05` at magnitude `≈ 2`, tolerance `0.1`);
the WKT candidate is returned. -/
theorem C5_witness :
    getLatAndLng geoTol "a" respAgree = .ok (some ⟨"a", 1, 2⟩) :=
  (C5_reconciler_cases geoTol "a" respAgree (by with_unfolding_all decide)).1
    ⟨"a", 1, 2⟩ ⟨"a", 1, 41 / 20⟩
    (by with_unfolding_all decide) (by with_unfolding_all decide)
    (by with_unfolding_all decide) (by with_unfolding_all decide)

/-- C6: when both candidates are present and not close within tolerance
on at least one axis, reconciliation raises the disagreement error
carrying both conflicting candidate values, each of which carries the
address; the call for that address aborts with the raised error. -/
theorem C6_disagreement_raised (g : Geo) (address : String) (qr : Response)
    (w o : Point) (ht : 0 ≤ g.rel_tol)
    (hw : get_wkt address qr = .ok (some w)) (ho : get_osm address qr = some o)
    (hfar : ¬ (closeQ w.x o.x g.rel_tol ∧ closeQ w.y o.y g.rel_tol)) :
    getLatAndLng g address qr = .error (.disagreement w o) ∧
    w.address = address ∧ o.address = address := by
  refine ⟨?_, get_wkt_address address qr w hw, get_osm_address address qr o ho⟩
  unfold getLatAndLng
  rw [hw]
  dsimp only
  rw [ho]
  dsimp only
  rw [isclose_eq_of_nonneg w.x o.x g.rel_tol ht,
      isclose_eq_of_nonneg w.y o.y g.rel_tol ht]
  by_cases hcx : closeQ w.x o.x g.rel_tol
  · have hcy : ¬ closeQ w.y o.y g.rel_tol := fun hcy => hfar ⟨hcx, hcy⟩
    simp [hcx, hcy]
  · simp [hcx]

/-- C6, witness: candidates `(1, 2)` and `(5, 2)` disagree on `x` and the
disagreement error carrying both points is raised. -/
theorem C6_witness :
    getLatAndLng geoTwo "a" respFar = .error (.disagreement ⟨"a", 1, 2⟩ ⟨"a", 5, 2⟩) ∧
    (⟨"a", 1, 2⟩ : Point).address = "a" ∧ (⟨"a", 5, 2⟩ : Point).address = "a" :=
  C6_disagreement_raised geoTwo "a" respFar ⟨"a", 1, 2⟩ ⟨"a", 5, 2⟩
    (by with_unfolding_all decide) (by with_unfolding_all decide)
    (by with_unfolding_all decide) (by with_unfolding_all decide)

/-- C7: the return convention of `get_coordinates` — an empty
(post-filtering) result yields null, a single-entry result yields that
single value, a longer result yields the sequence itself, whose entries
follow the input address order (the batch list is the in-order
`filterMap` of the per-address outcomes). -/
theorem C7_return_convention (g : Geo) (method : String → Except Unit Response)
    (addrs : List String) (lnv : Bool) (l l' : List (Option Point))
    (h : processAddrs g method addrs = .ok l)
    (hl' : l' = if lnv then l else l.filter Option.isSome) :
    (l' = [] → get_coordinates g method (.list addrs) lnv = .ok .nil) ∧
    (∀ p : Point, l' = [some p] →
      get_coordinates g method (.list addrs) lnv = .ok (.one p)) ∧
    (1 < l'.length → get_coordinates g method (.list addrs) lnv = .ok (.many l')) ∧
    l = addrs.filterMap (perAddrResult g method) := by
  have hgc : get_coordinates g method (.list addrs) lnv = .ok (retConv l') := by
    unfold get_coordinates
    dsimp only
    rw [h]
    cases lnv
    · simp only [Bool.false_eq_true, if_false] at hl'
      rw [hl']
      simp
    · simp only [if_true] at hl'
      rw [hl']
      simp
  refine ⟨?_, ?_, ?_, processAddrs_ok_eq g method addrs l h⟩
  · intro he
    rw [hgc, he]
    rfl
  · intro p hp
    rw [hgc, hp]
    rfl
  · intro hlen
    rw [hgc]
    unfold retConv
    rw [if_pos hlen]

/-- C7, witness: two successful addresses with null-filtering give the
two-element ordered sequence. -/
theorem C7_witness :
    get_coordinates geoTwo methodOsmAlways (.list ["a", "b"]) false
        = .ok (.many [some ⟨"a", 1, 2⟩, some ⟨"b", 1, 2⟩]) :=
  (C7_return_convention geoTwo methodOsmAlways ["a", "b"] false
      [some ⟨"a", 1, 2⟩, some ⟨"b", 1, 2⟩] [some ⟨"a", 1, 2⟩, some ⟨"b", 1, 2⟩]
      (by with_unfolding_all decide) (by with_unfolding_all decide)).2.2.1
    (by decide)

/-- Warnings accumulated before the provider loop finishes (or aborts)
persist in the final warning list. -/
theorem runProviders_warns_mem (g : Geo)
    (methods : String → String → Except Unit Response) (address : AddrInput)
    (names : List String) :
    ∀ (warns : List String) (dfs : List (String × List (Option Cell)))
      (w : List String) (out : Except PyErr (List (String × List (Option Cell)))),
    runProviders g methods address names warns dfs = (w, out) →
    ∀ x ∈ warns, x ∈ w := by
  induction names with
  | nil =>
    intro warns dfs w out h x hx
    unfold runProviders at h
    injection h with h1 h2
    subst h1
    exact hx
  | cons m0 rest ih =>
    intro warns dfs w out h x hx
    unfold runProviders at h
    split at h
    · split at h
      · injection h with h1 h2
        subst h1
        exact hx
      · split at h
        · split at h
          · injection h with h1 h2
            subst h1
            exact hx
          · exact ih _ _ _ _ h x hx
        · exact ih _ _ _ _ h x hx
    · exact ih _ _ _ _ h x (List.mem_append_left _ hx)

/-- When the provider loop completes without an exception, every
requested name outside the allow-list has had its warning emitted. -/
theorem runProviders_warns_unknown (g : Geo)
    (methods : String → String → Except Unit Response) (address : AddrInput)
    (names : List String) :
    ∀ (warns : List String) (dfs : List (String × List (Option Cell)))
      (w : List String) (res : List (String × List (Option Cell))),
    runProviders g methods address names warns dfs = (w, .ok res) →
    ∀ m ∈ names, m ∉ g.allowed_methods → unknownMethodWarning m ∈ w := by
  induction names with
  | nil =>
    intro warns dfs w res h m hmem hnall
    simp at hmem
  | cons m0 rest ih =>
    intro warns dfs w res h m hmem hnall
    unfold runProviders at h
    split at h
    · rename_i hall
      rcases List.mem_cons.mp hmem with rfl | hrest
      · exact absurd hall hnall
      · split at h
        · simp at h
        · split at h
          · split at h
            · simp at h
            · exact ih _ _ _ _ h m hrest hnall
          · exact ih _ _ _ _ h m hrest hnall
    · rcases List.mem_cons.mp hmem with rfl | hrest
      · exact runProviders_warns_mem g methods address rest _ _ _ _ h
          (unknownMethodWarning m) (List.mem_append_right _ (List.mem_singleton.mpr rfl))
      · exact ih _ _ _ _ h m hrest hnall

/-- Rows collected by the provider loop come only from allowed provider
names. -/
theorem runProviders_rows_allowed (g : Geo)
    (methods : String → String → Except Unit Response) (address : AddrInput)
    (names : List String) :
    ∀ (warns : List String) (dfs : List (String × List (Option Cell)))
      (w : List String) (res : List (String × List (Option Cell))),
    runProviders g methods address names warns dfs = (w, .ok res) →
    (∀ row ∈ dfs, row.1 ∈ g.allowed_methods) →
    ∀ row ∈ res, row.1 ∈ g.allowed_methods := by
  induction names with
  | nil =>
    intro warns dfs w res h hdfs row hrow
    unfold runProviders at h
    injection h with h1 h2
    injection h2 with h2
    subst h2
    exact hdfs row hrow
  | cons m0 rest ih =>
    intro warns dfs w res h hdfs row hrow
    unfold runProviders at h
    split at h
    · rename_i hall
      split at h
      · simp at h
      · split at h
        · split at h
          · simp at h
          · refine ih _ _ _ _ h ?_ row hrow
            intro row' hrow'
            rcases List.mem_append.mp hrow' with hold | hnew
            · exact hdfs row' hold
            · rw [List.mem_singleton.mp hnew]
              exact hall
        · exact ih _ _ _ _ h hdfs row hrow
    · exact ih _ _ _ _ h hdfs row hrow

/-- A non-empty explicit provider list is used as given. -/
theorem effectiveNames_some (g : Geo) (names : List String) (hne : names ≠ []) :
    effectiveNames g (some names) = names := by
  unfold effectiveNames
  dsimp only
  rw [if_pos hne]

/-- C3, counterexample: assembling over addresses `["a", "b"]` where
provider `m1` resolves only `"a"` and provider `m2` resolves nothing, the
pre-drop table has the all-null row `m2` and the all-null column `"b"`;
the returned table has dropped the row but still contains the all-null
column. -/
theorem C3_counterexample :
    (get_multiple_method_coordinates geoTwo methodsSplitCols (.list ["a", "b"])
        (some ["m1", "m2"])).2 = .ok (some tableC3) ∧
    runProviders geoTwo methodsSplitCols (.list ["a", "b"]) ["m1", "m2"] [] []
        = ([], .ok [("m1", [some (1, 2), none]), ("m2", [none, none])]) ∧
    tableC3.cols[1]? = some "b" ∧
    (tableC3.rows.all fun row => decide (row.2[1]? = some none)) = true := by
  refine ⟨?_, ?_, ?_, ?_⟩ <;> with_unfolding_all decide

/-- C3, amended: after all providers are processed only the rows
consisting entirely of nulls are dropped (`dropna(how='all')` acts on the
row axis only); the column set of the returned table is always the full
address key list, so all-null columns are retained. -/
theorem C3_amended (g : Geo)
    (methods : String → String → Except Unit Response) (address : AddrInput)
    (mnv : Option (List String)) (t : Table)
    (h : (get_multiple_method_coordinates g methods address mnv).2 = .ok (some t)) :
    (∀ row ∈ t.rows, row.2.any Option.isSome = true) ∧ t.cols = address.keys := by
  unfold get_multiple_method_coordinates at h
  rcases hrp : runProviders g methods address (effectiveNames g mnv) [] [] with ⟨w0, out⟩
  rw [hrp] at h
  cases out with
  | error e => simp at h
  | ok dfs =>
    dsimp only at h
    by_cases hdfs : dfs ≠ []
    · rw [if_pos hdfs] at h
      dsimp only at h
      simp only [Except.ok.injEq, Option.some.injEq] at h
      subst h
      constructor
      · intro row hrow
        exact (List.mem_filter.mp hrow).2
      · rfl
    · rw [if_neg hdfs] at h
      dsimp only at h
      simp at h

/-- C3, amended, witness at the counterexample input. -/
theorem C3_amended_witness :
    (∀ row ∈ tableC3.rows, row.2.any Option.isSome = true) ∧
    tableC3.cols = (AddrInput.list ["a", "b"]).keys :=
  C3_amended geoTwo methodsSplitCols (.list ["a", "b"]) (some ["m1", "m2"]) tableC3
    (by with_unfolding_all decide)

/-- C8: in the multi-provider path, every requested name outside the
allow-list gets a warning naming it and contributes no row (all rows of a
returned table are named by allowed providers), processing continues for
the others; and when no provider yielded any row the call returns null
rather than an empty table. -/
theorem C8_allowlist_enforcement (g : Geo)
    (methods : String → String → Except Unit Response) (address : AddrInput)
    (names : List String) (hne : names ≠ []) (r : Option Table)
    (h : (get_multiple_method_coordinates g methods address (some names)).2 = .ok r) :
    (∀ m ∈ names, m ∉ g.allowed_methods →
      unknownMethodWarning m ∈
        (get_multiple_method_coordinates g methods address (some names)).1) ∧
    (∀ t, r = some t → ∀ row ∈ t.rows, row.1 ∈ g.allowed_methods) ∧
    (∀ w, runProviders g methods address names [] [] = (w, .ok []) → r = none) := by
  have heff : effectiveNames g (some names) = names := effectiveNames_some g names hne
  rcases hrp : runProviders g methods address names [] [] with ⟨w0, out⟩
  unfold get_multiple_method_coordinates at h ⊢
  rw [heff, hrp] at h ⊢
  cases out with
  | error e => simp at h
  | ok dfs =>
    dsimp only at h ⊢
    refine ⟨?_, ?_, ?_⟩
    · intro m hmem hnall
      by_cases hdfs : dfs ≠ []
      · rw [if_pos hdfs]
        dsimp only
        exact runProviders_warns_unknown g methods address names [] [] w0 dfs hrp
          m hmem hnall
      · rw [if_neg hdfs]
        dsimp only
        exact runProviders_warns_unknown g methods address names [] [] w0 dfs hrp
          m hmem hnall
    · intro t ht row hrow
      by_cases hdfs : dfs ≠ []
      · rw [if_pos hdfs] at h
        dsimp only at h
        simp only [Except.ok.injEq] at h
        rw [← h] at ht
        simp only [Option.some.injEq] at ht
        subst ht
        exact runProviders_rows_allowed g methods address names [] [] w0 dfs hrp
          (by intro row' hrow'; simp at hrow') row (List.mem_filter.mp hrow).1
      · rw [if_neg hdfs] at h
        dsimp only at h
        simp only [Except.ok.injEq] at h
        rw [← h] at ht
        simp at ht
    · intro w hw
      injection hw with hw1 hw2
      injection hw2 with hw2
      subst hw2
      rw [if_neg (by simp)] at h
      dsimp only at h
      simp only [Except.ok.injEq] at h
      exact h.symm

/-- C8, witness: requesting `["zz", "m1"]` against the allow-list
`["m1", "m2"]` warns about `zz`, builds rows only from `m1`, and returns
the (non-null) table. -/
theorem C8_witness :
    (∀ m ∈ ["zz", "m1"], m ∉ geoTwo.allowed_methods →
      unknownMethodWarning m ∈ (get_multiple_method_coordinates geoTwo methodsSplitCols
        (.list ["a", "b"]) (some ["zz", "m1"])).1) ∧
    (∀ t, (some tableC3 : Option Table) = some t →
      ∀ row ∈ t.rows, row.1 ∈ geoTwo.allowed_methods) ∧
    (∀ w, runProviders geoTwo methodsSplitCols (.list ["a", "b"]) ["zz", "m1"] [] []
        = (w, .ok []) → (some tableC3 : Option Table) = none) :=
  C8_allowlist_enforcement geoTwo methodsSplitCols (.list ["a", "b"]) ["zz", "m1"]
    (by decide) (some tableC3) (by with_unfolding_all decide)

/-- A single-string query returns `None` or a single `Point` carrying the
queried address — never a list. -/
theorem get_coordinates_single_shape (g : Geo)
    (method : String → Except Unit Response) (s : String) (r : GCRet)
    (h : get_coordinates g method (.single s) true = .ok r) :
    r = .nil ∨ ∃ p : Point, r = .one p ∧ p.address = s := by
  unfold get_coordinates at h
  dsimp only at h
  split at h
  · left
    simp only [Except.ok.injEq] at h
    rw [← h]
    rfl
  · rename_i res hm
    split at h
    · simp at h
    · rename_i p hg
      simp only [Except.ok.injEq] at h
      cases p with
      | none =>
        left
        rw [← h]
        rfl
      | some q =>
        right
        exact ⟨q, by rw [← h]; rfl, getLatAndLng_address g s res q hg⟩

/-- Building a row from a single-string address and a `Point` result
raises `AttributeError`: the first zipped value is the point's `address`
field (a truthy string), on which `.x` is accessed. -/
theorem buildRow_single_err (s : String) (p : Point)
    (hs : s ≠ "") (hp : p.address ≠ "") :
    buildRow (.single s) (.one p) = .error .attributeError := by
  unfold buildRow
  obtain ⟨cs⟩ := s
  cases cs with
  | nil => exact absurd rfl hs
  | cons c t =>
    have hk : (AddrInput.single ⟨c :: t⟩).keys
        = String.mk [c] :: t.map (fun c => String.mk [c]) := by
      unfold AddrInput.keys
      rfl
    rw [hk]
    dsimp only [GCRet.iterVals]
    rw [List.zip_cons_cons]
    unfold buildData
    have hcell : cellOf (.vstr p.address) = .error .attributeError := by
      unfold cellOf
      rw [if_pos (by unfold PyV.truthy; exact decide_eq_true hp)]
      rfl
    rw [hcell]

/-- If some requested provider is allowed and resolves a (non-empty)
single-string address to a point, the provider loop aborts with an
exception. -/
theorem runProviders_single_raises (g : Geo)
    (methods : String → String → Except Unit Response) (s : String)
    (hs : s ≠ "") (names : List String) :
    ∀ (warns : List String) (dfs : List (String × List (Option Cell))),
    (∃ m ∈ names, m ∈ g.allowed_methods ∧ ∃ p : Point,
        get_coordinates g (methods m) (.single s) true = .ok (.one p)) →
    ∃ w e, runProviders g methods (.single s) names warns dfs = (w, .error e) := by
  induction names with
  | nil =>
    intro warns dfs hm
    simp at hm
  | cons m0 rest ih =>
    intro warns dfs hm
    unfold runProviders
    by_cases hall : m0 ∈ g.allowed_methods
    · rw [if_pos hall]
      cases hgc : get_coordinates g (methods m0) (.single s) true with
      | error e => exact ⟨warns, e, rfl⟩
      | ok r =>
        rcases get_coordinates_single_shape g (methods m0) s r hgc with hr | ⟨p, hr, hpa⟩
        · subst hr
          dsimp only
          rw [if_neg (by simp [GCRet.truthy])]
          apply ih
          obtain ⟨m, hmem, hma, p', hgp⟩ := hm
          rcases List.mem_cons.mp hmem with rfl | hrest
          · rw [hgc] at hgp
            simp at hgp
          · exact ⟨m, hrest, hma, p', hgp⟩
        · subst hr
          dsimp only
          rw [if_pos (by unfold GCRet.truthy; rfl)]
          rw [buildRow_single_err s p hs (by rw [hpa]; exact hs)]
          exact ⟨warns, .attributeError, rfl⟩
    · rw [if_neg hall]
      apply ih
      obtain ⟨m, hmem, hma, p', hgp⟩ := hm
      rcases List.mem_cons.mp hmem with rfl | hrest
      · exact absurd hma hall
      · exact ⟨m, hrest, hma, p', hgp⟩

/-- C10: calling the multi-provider path with a single address string of
length greater than one, where some requested allowed provider resolves
it to a point, raises an exception instead of returning a table: the
string is zipped character-by-character against the `Point`, whose fields
are then treated as result values (`.x` on a string raises). -/
theorem C10_single_string_raises (g : Geo)
    (methods : String → String → Except Unit Response) (s : String)
    (names : List String) (hlen : 1 < s.length)
    (hm : ∃ m ∈ names, m ∈ g.allowed_methods ∧ ∃ p : Point,
        get_coordinates g (methods m) (.single s) true = .ok (.one p)) :
    ∃ e, (get_multiple_method_coordinates g methods (.single s) (some names)).2
        = .error e := by
  have hs : s ≠ "" := by
    intro hempty
    subst hempty
    simp at hlen
  have hne : names ≠ [] := by
    obtain ⟨m, hmem, _⟩ := hm
    intro hempty
    subst hempty
    simp at hmem
  obtain ⟨w, e, hrp⟩ := runProviders_single_raises g methods s hs names [] [] hm
  refine ⟨e, ?_⟩
  unfold get_multiple_method_coordinates
  rw [effectiveNames_some g names hne, hrp]

/-- C10, witness: address `"ab"` with provider `m1` resolving it raises
(the concrete run yields the attribute error). -/
theorem C10_witness :
    ∃ e, (get_multiple_method_coordinates geoTwo methodsConst (.single "ab")
        (some ["m1"])).2 = .error e :=
  C10_single_string_raises geoTwo methodsConst "ab" ["m1"] (by decide)
    ⟨"m1", by decide, by decide, ⟨⟨"ab", 1, 2⟩, by with_unfolding_all decide⟩⟩
